import Mathlib

/-!
Verification of the WS22 dashboard core (`src/app/dashboard.py`).

The dashboard's computational core is embedded shallowly:

* a `Dataset` is the mapping of named numpy arrays decoded from a molecule's
  archive, with each multi-dimensional array modelled as nested lists of `ℚ`
  (machine floats are modelled as exact rationals; none of the verified
  properties depend on rounding);
* the external numeric/geometry kernels (numpy's `sqrt` inside
  `np.linalg.norm`, and `ase`'s `get_dihedral` / `get_angle` / `get_distance`)
  are parameters (`NumLib`, `GeomLib`): the dashboard calls them as black
  boxes, so theorems quantify over them;
* pandas DataFrames are modelled as named numeric and string columns
  (`Table`); `pd.melt` over equal-length columns is `melt`;
* Python exceptions are modelled with `Option` / `Except` result types;
* Streamlit widget state consumed inside the `process_*` functions is passed
  explicitly as a `Selection` record whose fields range over exactly the
  options each widget offers.
-/

/-- External numeric kernel: the square root used by `np.linalg.norm`. -/
structure NumLib where
  sqrt : ℚ → ℚ

/-- External geometry kernel: `ase.Atoms.get_dihedral` / `get_angle` /
`get_distance`, each taking one conformation's coordinates and the atom
indices.  The dashboard treats these as black boxes. -/
structure GeomLib where
  getDihedral : List (List ℚ) → List ℕ → ℚ
  getAngle : List (List ℚ) → List ℕ → ℚ
  getDistance : List (List ℚ) → List ℕ → ℚ

/-- The decoded `.npz` archive: one named array per field.  Leading axis is
the conformation axis; fields that the source always flattens (`Z`, `E`,
`R2`, `CONF`) are stored flattened. -/
structure Dataset where
  Z : List ℕ
  R : List (List (List ℚ))
  Q : List (List ℚ)
  F : List (List (List ℚ))
  DP : List (List ℚ)
  QP : List (List (List ℚ))
  P : List (List ℚ)
  FREQ : List (List ℚ)
  ETH : List (List ℚ)
  E : List ℚ
  HL : List (List ℚ)
  R2 : List ℚ
  CONF : List String

/-- ASCII lower-casing of one character, as `str.lower` acts on the ASCII
molecule names. -/
def lowerChar (c : Char) : Char :=
  if 'A' ≤ c ∧ c ≤ 'Z' then Char.ofNat (c.toNat + 32) else c

/-- `str.replace('2-', '')`: drop every occurrence of the two-character
pattern. -/
def stripTwoDash : List Char → List Char
  | [] => []
  | '2' :: '-' :: rest => stripTwoDash rest
  | c :: rest => c :: stripTwoDash rest

/-- `molecule.lower().replace('2-','')`, the name normalization performed
inside `get_data_zenodo`. -/
def normalizeName (s : String) : String :=
  String.mk (stripTwoDash (s.data.map lowerChar))

/-- The download URL built by `get_data_zenodo` from the normalized name. -/
def zenodoUrl (molecule : String) : String :=
  "https://zenodo.org/record/7032334/files/" ++
    ("ws22_" ++ normalizeName molecule ++ ".npz") ++ "?download=1"

/-- `get_data_zenodo` under its `@st.cache` decorator.  `st.cache` memoizes
on the argument as passed; the lower-casing happens inside the body, after
the cache key has been formed.  The state is the cache (an association list
keyed by the raw argument); the `ℕ` component counts network fetches
performed by this call (0 on a hit, 1 on a miss). -/
def get_data_zenodo {α : Type} (fetch : String → α) (cache : List (String × α))
    (molecule : String) : List (String × α) × α × ℕ :=
  match cache.lookup molecule with
  | some d => (cache, d, 0)
  | none =>
      let d := fetch (zenodoUrl molecule)
      ((molecule, d) :: cache, d, 1)

/-- Two successive loads starting from an empty cache: final cache and total
number of network fetches. -/
def loadTwice {α : Type} (fetch : String → α) (m1 m2 : String) :
    List (String × α) × ℕ :=
  let r1 := get_data_zenodo fetch [] m1
  let r2 := get_data_zenodo fetch r1.1 m2
  (r2.1, r1.2.2 + r2.2.2)

/-- The fixed element lookup `atom_types = {1:'H', 6:'C', 7:'N', 8:'O'}`,
read through `dict.get`, which yields `None` off the lookup. -/
def atom_types : ℕ → Option String
  | 1 => some "H"
  | 6 => some "C"
  | 7 => some "N"
  | 8 => some "O"
  | _ => none

/-- `z_to_labels`: `np.vectorize(atom_types.get)` over the flattened `Z`
field.  `dict.get` has no failure path, so the result type carries `none`
for an unknown atomic number instead of an error. -/
def z_to_labels (dataset : Dataset) : List (Option String) :=
  dataset.Z.map atom_types

/-- `np.min` of a nonempty array (the source only applies it to `data['E']`,
which the caller guarantees nonempty; emptiness is handled at the call
site). -/
def np_min (xs : List ℚ) : ℚ :=
  xs.foldl min (xs.headD 0)

/-- `np.max` of a nonempty array. -/
def np_max (xs : List ℚ) : ℚ :=
  xs.foldl max (xs.headD 0)

/-- Substring test on character lists, modelling `pandas.Series.str.contains`
applied with a plain element-symbol pattern (no regex metacharacters). -/
def isSubstrChars (needle : List Char) : List Char → Bool
  | [] => needle.isEmpty
  | c :: rest => needle.isPrefixOf (c :: rest) || isSubstrChars needle rest

/-- `hay` contains `needle` as a substring. -/
def str_contains (hay needle : String) : Bool :=
  isSubstrChars needle.data hay.data

/-- A pandas DataFrame, split into its numeric-valued and string-valued
named columns. -/
structure Table where
  numCols : List (String × List ℚ)
  strCols : List (String × List String)
deriving DecidableEq

/-- `df.columns`. -/
def Table.columns (t : Table) : List String :=
  t.numCols.map Prod.fst ++ t.strCols.map Prod.fst

/-- `pd.melt(df, id_vars=...)`: stack the value columns variable-major, each
row pairing the id value, the variable name, and the cell value.  Columns of
one DataFrame have equal length, which `zip` realizes. -/
def melt (idVals : List String) (cols : List (String × List ℚ)) :
    List (String × String × ℚ) :=
  cols.flatMap fun c => (idVals.zip c.2).map fun p => (p.1, c.1, p.2)

/-- The `"Select component"` radio of `process_force_data`. -/
inductive ForceComp | total | Fx | Fy | Fz
deriving DecidableEq

/-- The `"Select component"` radio of `process_dipole_data`. -/
inductive DipoleComp | total | Dx | Dy | Dz
deriving DecidableEq

/-- The `"Select component"` radio of `process_quadrupole_data`. -/
inductive QuadComp | norm | XX | YY | ZZ | XY | XZ | YZ
deriving DecidableEq

/-- The sidebar widget state read inside the `process_*` functions:
`none` for `atomTypeFilter` is the `'None'` radio option. -/
structure Selection where
  forceComp : ForceComp
  atomTypeFilter : Option String
  dipoleComp : DipoleComp
  quadComp : QuadComp
  selectMode : ℕ
  thermalChecks : Bool × Bool × Bool

/-- `fnorm_types = {'total': [0,1,2], 'Fx': [0], 'Fy': [1], 'Fz': [2]}`. -/
def fnorm_types : ForceComp → List ℕ
  | .total => [0, 1, 2]
  | .Fx => [0]
  | .Fy => [1]
  | .Fz => [2]

/-- Sum of squares of a list of entries. -/
def sumSquares (xs : List ℚ) : ℚ :=
  (xs.map fun x => x * x).sum

/-- `n_atoms = dataset['Q'].shape[1]`. -/
def n_atoms (dataset : Dataset) : ℕ :=
  (dataset.Q.headD []).length

/-- `process_force_data`: restrict each per-atom force vector to the selected
axes, take `np.linalg.norm` over the atom and axis dimensions (the square
root of the total sum of squares), one scalar per conformation. -/
def process_force_data (lib : NumLib) (dataset : Dataset) (sel : Selection) :
    Table :=
  let axes := fnorm_types sel.forceComp
  let forces_norm := dataset.F.map fun atoms =>
    lib.sqrt ((atoms.map fun row => sumSquares (axes.map fun j => row.getD j 0)).sum)
  { numCols := [("Forces", forces_norm)],
    strCols := [("Conformation", dataset.CONF)] }

/-- The per-atom column names of `process_mulliken_data`:
`atom_labels[i] + str(i+1)`.  On a dataset whose atomic numbers are all in
the lookup the `Option` never defaults (numpy's coercion of `None` into a
string array is not modelled; theorems about labels assume known
elements). -/
def mulliken_col_names (dataset : Dataset) : List String :=
  (List.range (n_atoms dataset)).map fun i =>
    ((z_to_labels dataset).getD i none).getD "None" ++ toString (i + 1)

/-- `process_mulliken_data`: melt the per-atom charge columns to long form,
then optionally keep only rows whose atom label contains the selected
element symbol. -/
def process_mulliken_data (dataset : Dataset) (sel : Selection) : Table :=
  let col_names := mulliken_col_names dataset
  let atom_charges := (List.range (n_atoms dataset)).map fun j =>
    dataset.Q.map fun row => row.getD j 0
  let melted := melt dataset.CONF (col_names.zip atom_charges)
  let rows := match sel.atomTypeFilter with
    | none => melted
    | some f => melted.filter fun r => str_contains r.2.1 f
  { numCols := [("Mulliken charges", rows.map fun r => r.2.2)],
    strCols := [("Conformation", rows.map Prod.fst),
                ("atom_labels", rows.map fun r => r.2.1)] }

/-- `process_dipole_data`: the `options` dict of `process_dipole_data`,
total norm or one Cartesian component. -/
def dipole_options (lib : NumLib) (dataset : Dataset) :
    DipoleComp → List ℚ
  | .total => dataset.DP.map fun v => lib.sqrt (sumSquares v)
  | .Dx => dataset.DP.map fun v => v.getD 0 0
  | .Dy => dataset.DP.map fun v => v.getD 1 0
  | .Dz => dataset.DP.map fun v => v.getD 2 0

/-- `process_dipole_data`. -/
def process_dipole_data (lib : NumLib) (dataset : Dataset) (sel : Selection) :
    Table :=
  { numCols := [("Dipole moment", dipole_options lib dataset sel.dipoleComp)],
    strCols := [("Conformation", dataset.CONF)] }

/-- One entry of a stored 3×3 tensor. -/
def tensorEntry (m : List (List ℚ)) (i j : ℕ) : ℚ :=
  (m.getD i []).getD j 0

/-- The `options` dict of `process_quadrupole_data`: Frobenius norm or one
tensor entry. -/
def quad_options (lib : NumLib) (dataset : Dataset) : QuadComp → List ℚ
  | .norm => dataset.QP.map fun m => lib.sqrt ((m.map sumSquares).sum)
  | .XX => dataset.QP.map fun m => tensorEntry m 0 0
  | .YY => dataset.QP.map fun m => tensorEntry m 1 1
  | .ZZ => dataset.QP.map fun m => tensorEntry m 2 2
  | .XY => dataset.QP.map fun m => tensorEntry m 0 1
  | .XZ => dataset.QP.map fun m => tensorEntry m 0 2
  | .YZ => dataset.QP.map fun m => tensorEntry m 1 2

/-- `process_quadrupole_data`. -/
def process_quadrupole_data (lib : NumLib) (dataset : Dataset)
    (sel : Selection) : Table :=
  { numCols := [("Quadrupole moment", quad_options lib dataset sel.quadComp)],
    strCols := [("Conformation", dataset.CONF)] }

/-- `process_polar_data`: melt all polarizability components to long form
(`pd.DataFrame(polar)` names its columns by position). -/
def process_polar_data (dataset : Dataset) : Table :=
  let width := (dataset.P.headD []).length
  let cols := (List.range width).map fun j =>
    (toString j, dataset.P.map fun row => row.getD j 0)
  let rows := melt dataset.CONF cols
  { numCols := [("Polarizability", rows.map fun r => r.2.2)],
    strCols := [("Conformation", rows.map Prod.fst),
                ("components", rows.map fun r => r.2.1)] }

/-- `process_freq_data`: defined in the source but never invoked by
`data_to_plot`.  Melt all modes to long form, then keep the rows of the one
slider-selected mode (the slider range is `0..n_modes` inclusive). -/
def process_freq_data (dataset : Dataset) (sel : Selection) : Table :=
  let n_modes := (dataset.FREQ.headD []).length
  let cols := (List.range n_modes).map fun j =>
    (toString j, dataset.FREQ.map fun row => row.getD j 0)
  let rows := (melt dataset.CONF cols).filter fun r =>
    r.2.1 = toString (min sel.selectMode n_modes)
  { numCols := [("Vibrational frequencies", rows.map fun r => r.2.2)],
    strCols := [("Conformation", rows.map Prod.fst),
                ("modes", rows.map fun r => r.2.1)] }

/-- `process_thermal_data`: defined in the source but never invoked by
`data_to_plot`.  Melt the three energy-type columns, then keep the rows
whose type is checked. -/
def process_thermal_data (dataset : Dataset) (sel : Selection) : Table :=
  let energy_types := ["energies", "enthalpies", "free energies"]
  let checks := [sel.thermalChecks.1, sel.thermalChecks.2.1, sel.thermalChecks.2.2]
  let cols := (List.range 3).map fun j =>
    (energy_types.getD j "", dataset.ETH.map fun row => row.getD j 0)
  let selected := (energy_types.zip checks).filterMap fun p =>
    if p.2 then some p.1 else none
  let rows := (melt dataset.CONF cols).filter fun r => selected.contains r.2.1
  { numCols := [("Electronic + thermal", rows.map fun r => r.2.2)],
    strCols := [("Conformation", rows.map Prod.fst),
                ("types", rows.map fun r => r.2.1)] }

/-- The `properties` selectbox tuple (line 296 of the source): 8 names.
`'Vibrational frequencies'` and `'Electronic + thermal energies'` are not in
it. -/
def properties : List String :=
  ["Potential energy", "Forces", "Mulliken charges", "Dipole moment",
   "Quadrupole moment", "Polarizability", "HOMO-LUMO gap",
   "Electronic spatial extent"]

/-- The post-dispatch step of `data_to_plot`: append the flattened `CONF`
column when no `Conformation` column is present. -/
def addConfIfAbsent (dataset : Dataset) (t : Table) : Table :=
  if t.columns.contains "Conformation" then t
  else { t with strCols := t.strCols ++ [("Conformation", dataset.CONF)] }

/-- `data_to_plot`.  The if-chain covers the 8 names of `properties`; any
other name leaves `df` unassigned and the subsequent column check raises
`UnboundLocalError`, modelled by `none`.  `np.min` of an empty energy array
raises, also modelled by `none`. -/
def data_to_plot (lib : NumLib) (dataset : Dataset) (sel : Selection)
    (property : String) : Option Table :=
  let branch : Option Table :=
    if property = "Potential energy" then
      if dataset.E.isEmpty then none
      else
        some { numCols := [("Potential energy",
                            dataset.E.map fun e => e - np_min dataset.E)],
               strCols := [] }
    else if property = "Forces" then
      some (process_force_data lib dataset sel)
    else if property = "Mulliken charges" then
      some (process_mulliken_data dataset sel)
    else if property = "Dipole moment" then
      some (process_dipole_data lib dataset sel)
    else if property = "Quadrupole moment" then
      some (process_quadrupole_data lib dataset sel)
    else if property = "Polarizability" then
      some (process_polar_data dataset)
    else if property = "HOMO-LUMO gap" then
      some { numCols := [("HOMO-LUMO gap",
                          dataset.HL.map fun r => r.getD 1 0 - r.getD 0 0)],
             strCols := [] }
    else if property = "Electronic spatial extent" then
      some { numCols := [("Electronic spatial extent", dataset.R2)],
             strCols := [] }
    else none
  branch.map (addConfIfAbsent dataset)

/-- The `ValueError` message raised by `get_internal_coords` on a wrong
arity. -/
def ic_error_msg : String :=
  "Invalid atoms selection!\n" ++
    "The number of indices must be 2 (distance), 3 (angle) or 4 (dihedral)."

/-- The remap applied to a raw dihedral (lines 251-252 of the source):
a value above 180 becomes `360 - value`, anything else passes through. -/
def dihedralFold (raw : ℚ) : ℚ :=
  if raw > 180 then 360 - raw else raw

/-- The loop body of `get_internal_coords` for one conformation: dispatch on
the arity of the index tuple; a dihedral is remapped by `dihedralFold`. -/
def icValue (geo : GeomLib) (xyz : List (List ℚ)) (indices : List ℕ) :
    Except String ℚ :=
  if indices.length = 4 then
    Except.ok (dihedralFold (geo.getDihedral xyz indices))
  else if indices.length = 3 then Except.ok (geo.getAngle xyz indices)
  else if indices.length = 2 then Except.ok (geo.getDistance xyz indices)
  else Except.error ic_error_msg

/-- `get_internal_coords`: iterate `icValue` over the conformations,
collecting one value per conformation; the first raised error aborts the
loop.  The atom labels are passed to `ase.Atoms` but do not enter the
geometric values. -/
def get_internal_coords (geo : GeomLib) (coords : List (List (List ℚ)))
    (labels : List (Option String)) (indices : List ℕ) :
    Except String (List ℚ) :=
  match coords with
  | [] => Except.ok []
  | xyz :: rest =>
      match icValue geo xyz indices with
      | Except.error e => Except.error e
      | Except.ok var =>
          match get_internal_coords geo rest labels indices with
          | Except.error e => Except.error e
          | Except.ok tail => Except.ok (var :: tail)

/-- The column name `'-'.join(atom_labels[atom_indices] + str(index))` of
`build_ic_dataframe`. -/
def ic_col_name (dataset : Dataset) (atom_indices : List ℕ) : String :=
  String.intercalate "-" (atom_indices.map fun b =>
    ((z_to_labels dataset).getD b none).getD "None" ++ toString b)

/-- The column-building loop of `build_ic_dataframe`: one named column per
index spec, each computed by `get_internal_coords`; the first raised error
aborts the loop. -/
def ic_columns (geo : GeomLib) (dataset : Dataset) :
    List (List ℕ) → Except String (List (String × List ℚ))
  | [] => Except.ok []
  | atom_indices :: rest =>
      match get_internal_coords geo dataset.R (z_to_labels dataset)
          atom_indices with
      | Except.error e => Except.error e
      | Except.ok values =>
          match ic_columns geo dataset rest with
          | Except.error e => Except.error e
          | Except.ok cols =>
              Except.ok ((ic_col_name dataset atom_indices, values) :: cols)

/-- `build_ic_dataframe`: one named column per index spec, then the
flattened `CONF` column.  The comma-separated index strings are parsed at
the UI boundary; the specs arrive here as index lists. -/
def build_ic_dataframe (geo : GeomLib) (dataset : Dataset)
    (selected_coords : List (List ℕ)) : Except String Table :=
  match ic_columns geo dataset selected_coords with
  | Except.error e => Except.error e
  | Except.ok cols =>
      Except.ok { numCols := cols, strCols := [("Conformation", dataset.CONF)] }

/-- One row of the statistics table produced by `build_stats`: the
`describe()` columns (count, mean, std, min, 25%, 50%, 75%, max, named
`vmin` / `q25` / `q50` / `q75` / `vmax` here) plus the separately computed
`median` column. -/
structure StatRec where
  count : ℚ
  mean : ℚ
  std : ℚ
  vmin : ℚ
  q25 : ℚ
  q50 : ℚ
  q75 : ℚ
  vmax : ℚ
  median : ℚ
deriving DecidableEq

/-- Insert into a sorted list. -/
def insertSorted (x : ℚ) : List ℚ → List ℚ
  | [] => [x]
  | y :: ys => if x ≤ y then x :: y :: ys else y :: insertSorted x ys

/-- Insertion sort, the sorting underlying the order statistics. -/
def isort : List ℚ → List ℚ
  | [] => []
  | x :: xs => insertSorted x (isort xs)

/-- The fractional position `(n - 1) · p` at which the linear-interpolation
quantile reads the sorted values. -/
def quantilePos (xs : List ℚ) (p : ℚ) : ℚ :=
  ((xs.length : ℚ) - 1) * p

/-- The linear-interpolation quantile of `describe()` (numpy's default):
interpolate between the order statistics on either side of the fractional
position `quantilePos`. -/
def quantileSorted (xs : List ℚ) (p : ℚ) : ℚ :=
  xs.getD (⌊quantilePos xs p⌋).toNat 0 +
    (quantilePos xs p - (((⌊quantilePos xs p⌋).toNat : ℕ) : ℚ)) *
      (xs.getD (⌈quantilePos xs p⌉).toNat 0 - xs.getD (⌊quantilePos xs p⌋).toNat 0)

/-- `np.median` on sorted values: the middle element, or the mean of the
two middle elements. -/
def medianSorted (xs : List ℚ) : ℚ :=
  if xs.length % 2 = 1 then xs.getD (xs.length / 2) 0
  else (xs.getD (xs.length / 2 - 1) 0 + xs.getD (xs.length / 2) 0) / 2

/-- The statistics `build_stats` derives for one conformation group:
`describe()` plus the separately computed median. -/
def statsOfGroup (lib : NumLib) (g : List ℚ) : StatRec :=
  let n : ℚ := (g.length : ℚ)
  let mean := g.sum / n
  let sorted := isort g
  { count := n
    mean := mean
    std := lib.sqrt ((g.map fun x => (x - mean) * (x - mean)).sum / (n - 1))
    vmin := np_min g
    q25 := quantileSorted sorted (1 / 4)
    q50 := quantileSorted sorted (1 / 2)
    q75 := quantileSorted sorted (3 / 4)
    vmax := np_max g
    median := medianSorted sorted }

/-- `build_stats`: group the (value, Conformation) projection of the frame
by conformation id and attach the statistics of each group.  Key order is
not modelled (pandas sorts group keys); the keys are the distinct
conformation ids. -/
def build_stats (lib : NumLib) (rows : List (ℚ × String)) :
    List (String × StatRec) :=
  ((rows.map Prod.snd).dedup).map fun c =>
    (c, statsOfGroup lib ((rows.filter fun r => r.snd = c).map Prod.fst))

/-- A concrete numeric kernel for witnesses. -/
def exLib : NumLib := ⟨fun q => q⟩

/-- A concrete geometry kernel for witnesses: every dihedral reads 270,
every angle 60, every distance 1. -/
def exGeo : GeomLib := ⟨fun _ _ => 270, fun _ _ => 60, fun _ _ => 1⟩

/-- A concrete one-conformation, two-atom dataset for witnesses. -/
def exDs : Dataset :=
  { Z := [1, 6]
    R := [[[0, 0, 0], [1, 0, 0]]]
    Q := [[1 / 10, -1 / 10]]
    F := [[[0, 0, 0], [0, 0, 0]]]
    DP := [[1, 2, 2]]
    QP := [[[1, 0, 0], [0, 1, 0], [0, 0, 1]]]
    P := [[1, 2]]
    FREQ := [[100, 200]]
    ETH := [[1, 2, 3]]
    E := [3]
    HL := [[-2, 1]]
    R2 := [7]
    CONF := ["wigner"] }

/-- `exDs` with an atomic number outside the lookup. -/
def exDsUnknown : Dataset := { exDs with Z := [3] }

/-- A concrete widget selection for witnesses. -/
def exSel : Selection :=
  { forceComp := .total
    atomTypeFilter := none
    dipoleComp := .total
    quadComp := .norm
    selectMode := 0
    thermalChecks := (true, true, true) }

/-- How many times the flattened `CONF` field is stacked in the
`Conformation` column of `data_to_plot`'s result: once per melted column
for the long-form properties, once for the scalar-per-conformation
properties. -/
def confReps (dataset : Dataset) (property : String) : ℕ :=
  if property = "Mulliken charges" then n_atoms dataset
  else if property = "Polarizability" then (dataset.P.headD []).length
  else 1

/-- Reduction of `data_to_plot` at `"Potential energy"`. -/
theorem dtp_potential (lib : NumLib) (ds : Dataset) (sel : Selection) :
    data_to_plot lib ds sel "Potential energy" =
      Option.map (addConfIfAbsent ds)
        (if ds.E.isEmpty then none
         else some { numCols := [("Potential energy",
                                  ds.E.map fun e => e - np_min ds.E)],
                     strCols := [] }) := rfl

/-- Reduction of `data_to_plot` at `"Forces"`. -/
theorem dtp_forces (lib : NumLib) (ds : Dataset) (sel : Selection) :
    data_to_plot lib ds sel "Forces" =
      some (addConfIfAbsent ds (process_force_data lib ds sel)) := rfl

/-- Reduction of `data_to_plot` at `"Mulliken charges"`. -/
theorem dtp_mulliken (lib : NumLib) (ds : Dataset) (sel : Selection) :
    data_to_plot lib ds sel "Mulliken charges" =
      some (addConfIfAbsent ds (process_mulliken_data ds sel)) := rfl

/-- Reduction of `data_to_plot` at `"Dipole moment"`. -/
theorem dtp_dipole (lib : NumLib) (ds : Dataset) (sel : Selection) :
    data_to_plot lib ds sel "Dipole moment" =
      some (addConfIfAbsent ds (process_dipole_data lib ds sel)) := rfl

/-- Reduction of `data_to_plot` at `"Quadrupole moment"`. -/
theorem dtp_quadrupole (lib : NumLib) (ds : Dataset) (sel : Selection) :
    data_to_plot lib ds sel "Quadrupole moment" =
      some (addConfIfAbsent ds (process_quadrupole_data lib ds sel)) := rfl

/-- Reduction of `data_to_plot` at `"Polarizability"`. -/
theorem dtp_polar (lib : NumLib) (ds : Dataset) (sel : Selection) :
    data_to_plot lib ds sel "Polarizability" =
      some (addConfIfAbsent ds (process_polar_data ds)) := rfl

/-- Reduction of `data_to_plot` at `"HOMO-LUMO gap"`. -/
theorem dtp_gap (lib : NumLib) (ds : Dataset) (sel : Selection) :
    data_to_plot lib ds sel "HOMO-LUMO gap" =
      some (addConfIfAbsent ds
        { numCols := [("HOMO-LUMO gap",
                       ds.HL.map fun r => r.getD 1 0 - r.getD 0 0)],
          strCols := [] }) := rfl

/-- Reduction of `data_to_plot` at `"Electronic spatial extent"`. -/
theorem dtp_r2 (lib : NumLib) (ds : Dataset) (sel : Selection) :
    data_to_plot lib ds sel "Electronic spatial extent" =
      some (addConfIfAbsent ds
        { numCols := [("Electronic spatial extent", ds.R2)],
          strCols := [] }) := rfl

/-- A nonempty energy array is not `isEmpty`. -/
theorem isEmpty_false_of_ne_nil {xs : List ℚ} (h : xs ≠ []) :
    xs.isEmpty = false := by
  obtain ⟨a, as, rfl⟩ := List.exists_cons_of_ne_nil h
  rfl

/-- `foldl min` never exceeds its initial accumulator. -/
theorem foldl_min_le_init (xs : List ℚ) : ∀ a : ℚ, xs.foldl min a ≤ a := by
  induction xs with
  | nil => intro a; exact le_refl a
  | cons y ys ih =>
      intro a
      calc (y :: ys).foldl min a = ys.foldl min (min a y) := rfl
        _ ≤ min a y := ih (min a y)
        _ ≤ a := min_le_left a y

/-- `foldl min` never exceeds any member of the list. -/
theorem foldl_min_le_mem (xs : List ℚ) :
    ∀ a x, x ∈ xs → xs.foldl min a ≤ x := by
  induction xs with
  | nil => intro a x hx; exact absurd hx (List.not_mem_nil x)
  | cons y ys ih =>
      intro a x hx
      rcases List.mem_cons.mp hx with rfl | hx
      · calc (x :: ys).foldl min a = ys.foldl min (min a x) := rfl
          _ ≤ min a x := foldl_min_le_init ys (min a x)
          _ ≤ x := min_le_right a x
      · exact ih (min a y) x hx

/-- `foldl min` returns its initial accumulator or a member of the list. -/
theorem foldl_min_mem (xs : List ℚ) :
    ∀ a, xs.foldl min a = a ∨ xs.foldl min a ∈ xs := by
  induction xs with
  | nil => intro a; exact Or.inl rfl
  | cons y ys ih =>
      intro a
      rcases ih (min a y) with h | h
      · rcases le_total a y with hay | hya
        · exact Or.inl (by
            rw [show (y :: ys).foldl min a = ys.foldl min (min a y) from rfl,
              h, min_eq_left hay])
        · refine Or.inr ?_
          rw [show (y :: ys).foldl min a = ys.foldl min (min a y) from rfl,
            h, min_eq_right hya]
          exact List.mem_cons_self y ys
      · exact Or.inr (List.mem_cons_of_mem y h)

/-- `np.min` of a nonempty array is a member of the array. -/
theorem np_min_mem {xs : List ℚ} (h : xs ≠ []) : np_min xs ∈ xs := by
  obtain ⟨y, ys, rfl⟩ := List.exists_cons_of_ne_nil h
  unfold np_min
  rcases foldl_min_mem ys (min y y) with hm | hm
  · rw [show (y :: ys).foldl min ((y :: ys).headD 0) = ys.foldl min (min y y) from rfl, hm, min_self]
    exact List.mem_cons_self y ys
  · rw [show (y :: ys).foldl min ((y :: ys).headD 0) = ys.foldl min (min y y) from rfl]
    exact List.mem_cons_of_mem y hm

/-- `np.min` of a nonempty array bounds every member from below. -/
theorem np_min_le (xs : List ℚ) : ∀ x ∈ xs, np_min xs ≤ x := by
  cases xs with
  | nil => intro x hx; exact absurd hx (List.not_mem_nil x)
  | cons y ys =>
      intro x hx
      unfold np_min
      rcases List.mem_cons.mp hx with rfl | hx
      · calc (x :: ys).foldl min ((x :: ys).headD 0)
            = ys.foldl min (min x x) := rfl
          _ ≤ min x x := foldl_min_le_init ys (min x x)
          _ = x := min_self x
      · exact foldl_min_le_mem ys (min y y) x hx

/-- The id column of a melted frame is the id values stacked once per value
column, provided every value column has the id column's length. -/
theorem melt_map_fst (idVals : List String) :
    ∀ cols : List (String × List ℚ),
      (∀ c ∈ cols, c.2.length = idVals.length) →
      (melt idVals cols).map Prod.fst =
        (List.replicate cols.length idVals).flatten := by
  intro cols
  induction cols with
  | nil => intro _; rfl
  | cons c cs ih =>
      intro h
      have hc : c.2.length = idVals.length := h c (List.mem_cons_self c cs)
      have hcs : ∀ d ∈ cs, d.2.length = idVals.length := fun d hd =>
        h d (List.mem_cons_of_mem c hd)
      calc (melt idVals (c :: cs)).map Prod.fst
          = ((idVals.zip c.2).map fun p => (p.1, c.1, p.2)).map Prod.fst ++
              (melt idVals cs).map Prod.fst := by
            simp [melt, List.flatMap_cons]
        _ = idVals ++ (List.replicate cs.length idVals).flatten := by
            rw [ih hcs, List.map_map]
            congr 1
            have : (Prod.fst ∘ fun p : String × ℚ => (p.1, c.1, p.2)) =
                Prod.fst := rfl
            rw [this]
            exact List.map_fst_zip idVals c.2 (le_of_eq hc.symm)
        _ = (List.replicate (c :: cs).length idVals).flatten := by
            simp [List.replicate_succ]

/-- Running `get_internal_coords` with a 4-index tuple computes the folded
dihedral of every conformation. -/
theorem gic_four (geo : GeomLib) (coords : List (List (List ℚ)))
    (labels : List (Option String)) (indices : List ℕ)
    (h4 : indices.length = 4) :
    get_internal_coords geo coords labels indices =
      Except.ok (coords.map fun xyz =>
        dihedralFold (geo.getDihedral xyz indices)) := by
  induction coords with
  | nil => rfl
  | cons xyz rest ih =>
      have hx : icValue geo xyz indices =
          Except.ok (dihedralFold (geo.getDihedral xyz indices)) := by
        simp [icValue, h4]
      simp [get_internal_coords, hx, ih]

/-- `ic_columns` only relays errors: a successful `build_ic_dataframe` ends
with exactly the flattened `CONF` column as its string columns. -/
theorem build_ic_strCols (geo : GeomLib) (ds : Dataset)
    (specs : List (List ℕ)) :
    ∀ t, build_ic_dataframe geo ds specs = Except.ok t →
      t.strCols = [("Conformation", ds.CONF)] := by
  intro t ht
  unfold build_ic_dataframe at ht
  cases hm : ic_columns geo ds specs with
  | error e => rw [hm] at ht; exact absurd ht (by simp)
  | ok cols =>
      rw [hm] at ht
      have := Except.ok.inj ht
      rw [← this]

/-- Sorted insertion grows the length by one. -/
theorem length_insertSorted (x : ℚ) (xs : List ℚ) :
    (insertSorted x xs).length = xs.length + 1 := by
  induction xs with
  | nil => rfl
  | cons y ys ih =>
      unfold insertSorted
      by_cases h : x ≤ y
      · simp [h]
      · simp [h, ih]

/-- Insertion sort preserves length. -/
theorem length_isort (xs : List ℚ) : (isort xs).length = xs.length := by
  induction xs with
  | nil => rfl
  | cons x ys ih => simp [isort, length_insertSorted, ih]

/-- The interpolation position of the 50% quantile, even length. -/
theorem quantilePos_even (xs : List ℚ) (m : ℕ)
    (hlen : xs.length = m + m) :
    quantilePos xs (1 / 2) = ((m : ℚ) + m - 1) * (1 / 2) := by
  unfold quantilePos
  rw [hlen]
  push_cast
  ring

/-- Floor of the 50% interpolation position, even length. -/
theorem floor_pos_even (xs : List ℚ) (m : ℕ) (hm1 : 1 ≤ m)
    (hlen : xs.length = m + m) :
    (⌊quantilePos xs (1 / 2)⌋).toNat = m - 1 := by
  have hq : (1 : ℚ) ≤ (m : ℚ) := by exact_mod_cast hm1
  have hfl : (⌊quantilePos xs (1 / 2)⌋ : ℤ) = (m : ℤ) - 1 := by
    rw [quantilePos_even xs m hlen, Int.floor_eq_iff]
    constructor
    · push_cast; linarith
    · push_cast; linarith
  omega

/-- Ceiling of the 50% interpolation position, even length. -/
theorem ceil_pos_even (xs : List ℚ) (m : ℕ) (hm1 : 1 ≤ m)
    (hlen : xs.length = m + m) :
    (⌈quantilePos xs (1 / 2)⌉).toNat = m := by
  have hq : (1 : ℚ) ≤ (m : ℚ) := by exact_mod_cast hm1
  have hcl : (⌈quantilePos xs (1 / 2)⌉ : ℤ) = (m : ℤ) := by
    rw [quantilePos_even xs m hlen, Int.ceil_eq_iff]
    constructor
    · push_cast; linarith
    · push_cast; linarith
  omega

/-- The 50% linear-interpolation quantile of an even-length list is the
mean of the two middle entries. -/
theorem quantileSorted_even (xs : List ℚ) (m : ℕ) (hm1 : 1 ≤ m)
    (hlen : xs.length = m + m) :
    quantileSorted xs (1 / 2) = (xs.getD (m - 1) 0 + xs.getD m 0) / 2 := by
  unfold quantileSorted
  rw [floor_pos_even xs m hm1 hlen, ceil_pos_even xs m hm1 hlen,
    quantilePos_even xs m hlen, Nat.cast_sub hm1]
  push_cast
  ring

/-- The median of an even-length list is the mean of the two middle
entries. -/
theorem medianSorted_even (xs : List ℚ) (m : ℕ)
    (hlen : xs.length = m + m) :
    medianSorted xs = (xs.getD (m - 1) 0 + xs.getD m 0) / 2 := by
  unfold medianSorted
  rw [if_neg (by omega), show xs.length / 2 = m by omega]

/-- The 50% linear-interpolation quantile of an odd-length list is the
middle entry. -/
theorem quantileSorted_odd (xs : List ℚ) (m : ℕ)
    (hlen : xs.length = 2 * m + 1) :
    quantileSorted xs (1 / 2) = xs.getD m 0 := by
  have hpos : quantilePos xs (1 / 2) = ((m : ℤ) : ℚ) := by
    unfold quantilePos
    rw [hlen]
    push_cast
    ring
  unfold quantileSorted
  rw [hpos, Int.floor_intCast, Int.ceil_intCast,
    show ((m : ℤ)).toNat = m by omega]
  push_cast
  ring

/-- The median of an odd-length list is the middle entry. -/
theorem medianSorted_odd (xs : List ℚ) (m : ℕ)
    (hlen : xs.length = 2 * m + 1) :
    medianSorted xs = xs.getD m 0 := by
  unfold medianSorted
  rw [if_pos (by omega), show xs.length / 2 = m by omega]

/-- The independently computed median agrees with the 50% linear-
interpolation quantile on every nonempty list. -/
theorem quantile_half_eq_median (xs : List ℚ) (hne : xs ≠ []) :
    quantileSorted xs (1 / 2) = medianSorted xs := by
  have hn : 1 ≤ xs.length := List.length_pos.mpr hne
  rcases Nat.even_or_odd xs.length with he | ho
  · obtain ⟨m, hm⟩ := he
    have hm1 : 1 ≤ m := by omega
    rw [quantileSorted_even xs m hm1 hm, medianSorted_even xs m hm]
  · obtain ⟨m, hm⟩ := ho
    rw [quantileSorted_odd xs m hm, medianSorted_odd xs m hm]

/-- Claim C2 (counterexample): starting from an empty cache, loading
`"Thymine"` and then `"thymine"` issues two network fetches and leaves two
distinct cache entries — not the single shared entry and single fetch the
claim asserts. -/
theorem C2_counterexample :
    (loadTwice (fun _ => (0 : ℕ)) "Thymine" "thymine").2 = 2 ∧
    (loadTwice (fun _ => (0 : ℕ)) "Thymine" "thymine").1.length = 2 ∧
    ¬ (loadTwice (fun _ => (0 : ℕ)) "Thymine" "thymine").2 = 1 := by
  refine ⟨rfl, rfl, ?_⟩
  decide

/-- Claim C2 (amended): `st.cache` keys `get_data_zenodo` on the raw
argument, so only two calls with the identical raw name share a cache entry
and issue one fetch; `"Thymine"` then `"thymine"` issue two fetches into
two cache entries, though both resolve to the same normalized download
URL. -/
theorem C2_cache_by_raw_name {α : Type} (fetch : String → α) (m : String) :
    (loadTwice fetch m m).2 = 1 ∧
    (loadTwice fetch "Thymine" "thymine").2 = 2 ∧
    (loadTwice fetch "Thymine" "thymine").1.length = 2 ∧
    zenodoUrl "Thymine" = zenodoUrl "thymine" := by
  refine ⟨?_, rfl, rfl, by decide⟩
  simp [loadTwice, get_data_zenodo, List.lookup]

/-- Claim C3: on a dataset whose atomic-number field holds 3 (outside the
fixed lookup), `z_to_labels` raises nothing and yields the `dict.get`
default `None` as the label — the code has no `UnknownElementError`
path. -/
theorem C3_unknown_z_silent :
    exDsUnknown.Z = [3] ∧ z_to_labels exDsUnknown = [none] := by
  exact ⟨rfl, by decide⟩

/-- Claim C4: for a 4-index tuple, `get_internal_coords` returns, for every
conformation, the raw `ase` dihedral remapped by the fold: values above 180
become `360 - value`, others pass through unchanged. -/
theorem C4_dihedral_fold (geo : GeomLib) (coords : List (List (List ℚ)))
    (labels : List (Option String)) (indices : List ℕ)
    (h4 : indices.length = 4) :
    get_internal_coords geo coords labels indices =
      Except.ok (coords.map fun xyz =>
        dihedralFold (geo.getDihedral xyz indices)) ∧
    ∀ raw : ℚ, (raw > 180 → dihedralFold raw = 360 - raw) ∧
      (raw ≤ 180 → dihedralFold raw = raw) := by
  refine ⟨gic_four geo coords labels indices h4, fun raw => ⟨?_, ?_⟩⟩
  · intro h
    unfold dihedralFold
    rw [if_pos h]
  · intro h
    unfold dihedralFold
    rw [if_neg (not_lt.mpr h)]

/-- Witness for C4 at a concrete geometry: the constant-270 dihedral kernel
folds to 90 on the example dataset. -/
theorem C4_witness :
    (([0, 1, 2, 3] : List ℕ).length = 4) ∧
    (get_internal_coords exGeo exDs.R (z_to_labels exDs) [0, 1, 2, 3] =
      Except.ok (exDs.R.map fun xyz =>
        dihedralFold (exGeo.getDihedral xyz [0, 1, 2, 3])) ∧
    ∀ raw : ℚ, (raw > 180 → dihedralFold raw = 360 - raw) ∧
      (raw ≤ 180 → dihedralFold raw = raw)) :=
  ⟨rfl, C4_dihedral_fold exGeo exDs.R (z_to_labels exDs) [0, 1, 2, 3] rfl⟩

/-- Claim C5: with at least one conformation, an index tuple whose length
is not 2, 3 or 4 makes `get_internal_coords` fail with the `ValueError`
whose message names the allowed arities 2 (distance), 3 (angle) and
4 (dihedral). -/
theorem C5_invalid_arity (geo : GeomLib) (coords : List (List (List ℚ)))
    (labels : List (Option String)) (indices : List ℕ)
    (hne : coords ≠ [])
    (hlen : ¬(indices.length = 2 ∨ indices.length = 3 ∨ indices.length = 4)) :
    get_internal_coords geo coords labels indices =
      Except.error ic_error_msg ∧
    str_contains ic_error_msg "2 (distance)" = true ∧
    str_contains ic_error_msg "3 (angle)" = true ∧
    str_contains ic_error_msg "4 (dihedral)" = true := by
  push_neg at hlen
  obtain ⟨h2, h3, h4⟩ := hlen
  obtain ⟨xyz, rest, rfl⟩ := List.exists_cons_of_ne_nil hne
  have hx : icValue geo xyz indices = Except.error ic_error_msg := by
    simp [icValue, h2, h3, h4]
  refine ⟨?_, by decide, by decide, by decide⟩
  simp [get_internal_coords, hx]

/-- Witness for C5 at a concrete input: a 1-index tuple on the example
dataset raises the arity error. -/
theorem C5_witness :
    (exDs.R ≠ []) ∧
    ¬(([0] : List ℕ).length = 2 ∨ ([0] : List ℕ).length = 3 ∨
        ([0] : List ℕ).length = 4) ∧
    (get_internal_coords exGeo exDs.R (z_to_labels exDs) [0] =
        Except.error ic_error_msg ∧
      str_contains ic_error_msg "2 (distance)" = true ∧
      str_contains ic_error_msg "3 (angle)" = true ∧
      str_contains ic_error_msg "4 (dihedral)" = true) :=
  ⟨by decide, by decide,
    C5_invalid_arity exGeo exDs.R (z_to_labels exDs) [0] (by decide) (by decide)⟩

/-- Claim C9: with zero conformations the loop body never runs, so
`get_internal_coords` returns an empty result for every index tuple —
wrong arities included — and raises nothing. -/
theorem C9_empty_coords (geo : GeomLib) (labels : List (Option String))
    (indices : List ℕ) :
    get_internal_coords geo [] labels indices = Except.ok [] := rfl

/-- Claim C10: for a 4-index tuple, if every raw dihedral lies in
`[0, 360)`, every value `get_internal_coords` returns is at most 180. -/
theorem C10_fold_below_180 (geo : GeomLib) (coords : List (List (List ℚ)))
    (labels : List (Option String)) (indices : List ℕ)
    (h4 : indices.length = 4)
    (hraw : ∀ xyz ∈ coords, 0 ≤ geo.getDihedral xyz indices ∧
        geo.getDihedral xyz indices < 360) :
    ∀ r, get_internal_coords geo coords labels indices = Except.ok r →
      ∀ v ∈ r, v ≤ 180 := by
  intro r hr v hv
  rw [gic_four geo coords labels indices h4] at hr
  have hrr := Except.ok.inj hr
  rw [← hrr] at hv
  obtain ⟨xyz, hxyz, rfl⟩ := List.mem_map.mp hv
  unfold dihedralFold
  by_cases h : geo.getDihedral xyz indices > 180
  · rw [if_pos h]
    linarith
  · rw [if_neg h]
    exact not_lt.mp h

/-- Witness for C10 at a concrete input: the constant-270 dihedral kernel
yields 90 ≤ 180 on the example dataset. -/
theorem C10_witness :
    (([0, 1, 2, 3] : List ℕ).length = 4) ∧
    (∀ xyz ∈ exDs.R, 0 ≤ exGeo.getDihedral xyz [0, 1, 2, 3] ∧
        exGeo.getDihedral xyz [0, 1, 2, 3] < 360) ∧
    ((90 : ℚ) ≤ 180) :=
  ⟨rfl, by decide,
    C10_fold_below_180 exGeo exDs.R (z_to_labels exDs) [0, 1, 2, 3] rfl
      (by decide) [90]
      (by simp [get_internal_coords, exDs, icValue, exGeo, dihedralFold]
          norm_num)
      90 (by decide)⟩

/-- Claim C1 (counterexample): the dispatch list has 8 property names, not
9; `'Vibrational frequencies'` and `'Electronic + thermal energies'` are
absent from it, and `data_to_plot` fails (no branch assigns the frame) for
both instead of returning a result. -/
theorem C1_counterexample :
    properties.length = 8 ∧
    "Vibrational frequencies" ∉ properties ∧
    "Electronic + thermal energies" ∉ properties ∧
    data_to_plot exLib exDs exSel "Vibrational frequencies" = none ∧
    data_to_plot exLib exDs exSel "Electronic + thermal energies" = none := by
  refine ⟨rfl, by decide, by decide, rfl, rfl⟩

/-- Claim C1 (amended): the dispatch covers exactly the 8 enumerated names
of the `properties` tuple — on a dataset with a nonempty energy field,
`data_to_plot` returns a frame for each of the 8 — while the two
spec-listed extras `'Vibrational frequencies'` and
`'Electronic + thermal energies'` fail. -/
theorem C1_dispatch_covers_8 (lib : NumLib) (ds : Dataset) (sel : Selection)
    (hE : ds.E ≠ []) :
    (∀ p ∈ properties, ∃ t, data_to_plot lib ds sel p = some t) ∧
    data_to_plot lib ds sel "Vibrational frequencies" = none ∧
    data_to_plot lib ds sel "Electronic + thermal energies" = none := by
  refine ⟨?_, rfl, rfl⟩
  intro p hp
  simp only [properties, List.mem_cons, List.not_mem_nil, or_false] at hp
  rcases hp with rfl | rfl | rfl | rfl | rfl | rfl | rfl | rfl
  · refine ⟨addConfIfAbsent ds
      { numCols := [("Potential energy", ds.E.map fun e => e - np_min ds.E)],
        strCols := [] }, ?_⟩
    rw [dtp_potential lib ds sel, isEmpty_false_of_ne_nil hE]
    rfl
  · exact ⟨_, dtp_forces lib ds sel⟩
  · exact ⟨_, dtp_mulliken lib ds sel⟩
  · exact ⟨_, dtp_dipole lib ds sel⟩
  · exact ⟨_, dtp_quadrupole lib ds sel⟩
  · exact ⟨_, dtp_polar lib ds sel⟩
  · exact ⟨_, dtp_gap lib ds sel⟩
  · exact ⟨_, dtp_r2 lib ds sel⟩

/-- Witness for C1 (amended) on the example dataset. -/
theorem C1_witness :
    (exDs.E ≠ []) ∧
    ((∀ p ∈ properties, ∃ t, data_to_plot exLib exDs exSel p = some t) ∧
      data_to_plot exLib exDs exSel "Vibrational frequencies" = none ∧
      data_to_plot exLib exDs exSel "Electronic + thermal energies" = none) :=
  ⟨by decide, C1_dispatch_covers_8 exLib exDs exSel (by decide)⟩

/-- Claim C7: the potential-energy branch subtracts the dataset minimum
from every energy, so 0 is a member of the returned value column and bounds
it from below — the column's minimum is exactly 0. -/
theorem C7_potential_min_zero (lib : NumLib) (ds : Dataset) (sel : Selection)
    (hE : ds.E ≠ []) :
    ∃ col, data_to_plot lib ds sel "Potential energy" =
        some { numCols := [("Potential energy", col)],
               strCols := [("Conformation", ds.CONF)] } ∧
      col = ds.E.map (fun e => e - np_min ds.E) ∧
      0 ∈ col ∧ ∀ x ∈ col, 0 ≤ x := by
  refine ⟨ds.E.map fun e => e - np_min ds.E, ?_, rfl, ?_, ?_⟩
  · rw [dtp_potential lib ds sel, isEmpty_false_of_ne_nil hE]
    rfl
  · exact List.mem_map.mpr ⟨np_min ds.E, np_min_mem hE, sub_self (np_min ds.E)⟩
  · intro x hx
    obtain ⟨e, he, rfl⟩ := List.mem_map.mp hx
    have := np_min_le ds.E e he
    linarith

/-- Witness for C7 on the example dataset. -/
theorem C7_witness :
    (exDs.E ≠ []) ∧
    ∃ col, data_to_plot exLib exDs exSel "Potential energy" =
        some { numCols := [("Potential energy", col)],
               strCols := [("Conformation", exDs.CONF)] } ∧
      col = exDs.E.map (fun e => e - np_min exDs.E) ∧
      0 ∈ col ∧ ∀ x ∈ col, 0 ≤ x :=
  ⟨by decide, C7_potential_min_zero exLib exDs exSel (by decide)⟩

/-- Stacking one copy of the id column is the id column. -/
theorem conf_singleton (l : List String) : (List.replicate 1 l).flatten = l := by
  simp

/-- The `Conformation` column of the melted Mulliken frame (no atom-type
filter) is the flattened `CONF` field stacked once per atom column. -/
theorem mulliken_conf_col (ds : Dataset) (sel : Selection)
    (hfilter : sel.atomTypeFilter = none)
    (hQ : ds.Q.length = ds.CONF.length) :
    (process_mulliken_data ds sel).strCols.lookup "Conformation" =
      some ((List.replicate (n_atoms ds) ds.CONF).flatten) := by
  have hlens : ∀ c ∈ (mulliken_col_names ds).zip
      ((List.range (n_atoms ds)).map fun j =>
        ds.Q.map fun row => row.getD j 0),
      (Prod.snd c).length = ds.CONF.length := by
    intro c hc
    have hc2 := (List.of_mem_zip hc).2
    obtain ⟨j, _, hj⟩ := List.mem_map.mp hc2
    rw [← hj, List.length_map]
    exact hQ
  have hcolslen : ((mulliken_col_names ds).zip
      ((List.range (n_atoms ds)).map fun j =>
        ds.Q.map fun row => row.getD j 0)).length = n_atoms ds := by
    rw [List.length_zip]
    unfold mulliken_col_names
    rw [List.length_map, List.length_range, List.length_map,
      List.length_range, min_self]
  unfold process_mulliken_data
  rw [hfilter]
  show some ((melt ds.CONF ((mulliken_col_names ds).zip
      ((List.range (n_atoms ds)).map fun j =>
        ds.Q.map fun row => row.getD j 0))).map Prod.fst) = _
  rw [melt_map_fst ds.CONF _ hlens, hcolslen]

/-- The `Conformation` column of the melted polarizability frame is the
flattened `CONF` field stacked once per component column. -/
theorem polar_conf_col (ds : Dataset)
    (hP : ds.P.length = ds.CONF.length) :
    (process_polar_data ds).strCols.lookup "Conformation" =
      some ((List.replicate (ds.P.headD []).length ds.CONF).flatten) := by
  have hlens : ∀ c ∈ (List.range (ds.P.headD []).length).map fun j =>
      (toString j, ds.P.map fun row => row.getD j 0),
      (Prod.snd c).length = ds.CONF.length := by
    intro c hc
    obtain ⟨j, _, hj⟩ := List.mem_map.mp hc
    rw [← hj, List.length_map]
    exact hP
  have hcolslen : ((List.range (ds.P.headD []).length).map fun j =>
      (toString j, ds.P.map fun row => row.getD j 0)).length =
      (ds.P.headD []).length := by
    rw [List.length_map, List.length_range]
  unfold process_polar_data
  show some ((melt ds.CONF ((List.range (ds.P.headD []).length).map fun j =>
      (toString j, ds.P.map fun row => row.getD j 0))).map Prod.fst) = _
  rw [melt_map_fst ds.CONF _ hlens, hcolslen]

/-- Claim C6 (counterexample): on a one-conformation, two-atom dataset the
melted Mulliken frame's `Conformation` column stacks the flattened `CONF`
field twice (once per atom column), so its entries do not equal `CONF`
flattened. -/
theorem C6_counterexample :
    exDs.CONF = ["wigner"] ∧
    data_to_plot exLib exDs exSel "Mulliken charges" =
      some { numCols := [("Mulliken charges", [1 / 10, -1 / 10])],
             strCols := [("Conformation", ["wigner", "wigner"]),
                         ("atom_labels", ["H1", "C2"])] } ∧
    (["wigner", "wigner"] : List String) ≠ ["wigner"] := by
  refine ⟨rfl, rfl, by decide⟩

/-- Claim C6 (amended): every frame `data_to_plot` returns carries a
`Conformation` column equal to the flattened `CONF` field stacked
`confReps` times — once for the scalar-per-conformation properties, once
per melted column for the long-form ones (Mulliken charges under no
atom-type filter, polarizability) — and `build_ic_dataframe`'s column
equals `CONF` flattened exactly. -/
theorem C6_conformation_column (lib : NumLib) (ds : Dataset) (sel : Selection)
    (hfilter : sel.atomTypeFilter = none)
    (hQ : ds.Q.length = ds.CONF.length)
    (hP : ds.P.length = ds.CONF.length) :
    (∀ p ∈ properties, ∀ t, data_to_plot lib ds sel p = some t →
      t.strCols.lookup "Conformation" =
        some ((List.replicate (confReps ds p) ds.CONF).flatten)) ∧
    (∀ geo specs t, build_ic_dataframe geo ds specs = Except.ok t →
      t.strCols.lookup "Conformation" = some ds.CONF) := by
  constructor
  · intro p hp
    simp only [properties, List.mem_cons, List.not_mem_nil, or_false] at hp
    rcases hp with rfl | rfl | rfl | rfl | rfl | rfl | rfl | rfl
    · intro t ht
      rw [dtp_potential lib ds sel] at ht
      cases hEe : ds.E.isEmpty with
      | true => rw [hEe] at ht; exact absurd ht (by simp)
      | false =>
          rw [hEe] at ht
          obtain rfl := (Option.some.inj ht).symm
          rw [show confReps ds "Potential energy" = 1 from rfl, conf_singleton]
          rfl
    · intro t ht
      rw [dtp_forces lib ds sel] at ht
      obtain rfl := (Option.some.inj ht).symm
      rw [show confReps ds "Forces" = 1 from rfl, conf_singleton]
      rfl
    · intro t ht
      rw [dtp_mulliken lib ds sel] at ht
      obtain rfl := (Option.some.inj ht).symm
      rw [show confReps ds "Mulliken charges" = n_atoms ds from rfl]
      show (process_mulliken_data ds sel).strCols.lookup "Conformation" = _
      exact mulliken_conf_col ds sel hfilter hQ
    · intro t ht
      rw [dtp_dipole lib ds sel] at ht
      obtain rfl := (Option.some.inj ht).symm
      rw [show confReps ds "Dipole moment" = 1 from rfl, conf_singleton]
      rfl
    · intro t ht
      rw [dtp_quadrupole lib ds sel] at ht
      obtain rfl := (Option.some.inj ht).symm
      rw [show confReps ds "Quadrupole moment" = 1 from rfl, conf_singleton]
      rfl
    · intro t ht
      rw [dtp_polar lib ds sel] at ht
      obtain rfl := (Option.some.inj ht).symm
      rw [show confReps ds "Polarizability" = (ds.P.headD []).length from rfl]
      show (process_polar_data ds).strCols.lookup "Conformation" = _
      exact polar_conf_col ds hP
    · intro t ht
      rw [dtp_gap lib ds sel] at ht
      obtain rfl := (Option.some.inj ht).symm
      rw [show confReps ds "HOMO-LUMO gap" = 1 from rfl, conf_singleton]
      rfl
    · intro t ht
      rw [dtp_r2 lib ds sel] at ht
      obtain rfl := (Option.some.inj ht).symm
      rw [show confReps ds "Electronic spatial extent" = 1 from rfl,
        conf_singleton]
      rfl
  · intro geo specs t ht
    rw [build_ic_strCols geo ds specs t ht]
    rfl

/-- Witness for C6 (amended) on the example dataset. -/
theorem C6_witness :
    (exSel.atomTypeFilter = none) ∧
    (exDs.Q.length = exDs.CONF.length) ∧
    (exDs.P.length = exDs.CONF.length) ∧
    ((∀ p ∈ properties, ∀ t, data_to_plot exLib exDs exSel p = some t →
        t.strCols.lookup "Conformation" =
          some ((List.replicate (confReps exDs p) exDs.CONF).flatten)) ∧
      (∀ geo specs t, build_ic_dataframe geo exDs specs = Except.ok t →
        t.strCols.lookup "Conformation" = some exDs.CONF)) :=
  ⟨rfl, rfl, rfl, C6_conformation_column exLib exDs exSel rfl rfl rfl⟩

/-- Claim C8: the statistics table has one row per distinct conformation id
(keys are exactly the distinct ids, without duplicates), and on every row
the separately computed `median` column equals the 50th-percentile
column. -/
theorem C8_median_duplicates_q50 (lib : NumLib) (rows : List (ℚ × String)) :
    ((build_stats lib rows).map Prod.fst).Nodup ∧
    (∀ c, c ∈ (build_stats lib rows).map Prod.fst ↔ c ∈ rows.map Prod.snd) ∧
    (∀ e ∈ build_stats lib rows, e.snd.median = e.snd.q50) := by
  have hkeys : (build_stats lib rows).map Prod.fst =
      (rows.map Prod.snd).dedup := by
    unfold build_stats
    rw [List.map_map]
    have hcomp : (Prod.fst ∘ fun c : String =>
        (c, statsOfGroup lib ((rows.filter fun r => r.snd = c).map Prod.fst)))
        = id := rfl
    rw [hcomp, List.map_id]
  refine ⟨?_, ?_, ?_⟩
  · rw [hkeys]
    exact List.nodup_dedup _
  · intro c
    rw [hkeys]
    exact List.mem_dedup
  · intro e he
    unfold build_stats at he
    obtain ⟨c, hc, rfl⟩ := List.mem_map.mp he
    have hcmem : c ∈ rows.map Prod.snd := List.mem_dedup.mp hc
    obtain ⟨r, hr, hrc⟩ := List.mem_map.mp hcmem
    have hrf : r ∈ rows.filter fun x => x.snd = c :=
      List.mem_filter.mpr ⟨hr, by simp [hrc]⟩
    have hgne : (rows.filter fun x => x.snd = c).map Prod.fst ≠ [] :=
      List.ne_nil_of_mem (List.mem_map_of_mem Prod.fst hrf)
    have hsne : isort ((rows.filter fun x => x.snd = c).map Prod.fst) ≠ [] := by
      have hl := length_isort ((rows.filter fun x => x.snd = c).map Prod.fst)
      intro hnil
      rw [hnil] at hl
      exact hgne (List.eq_nil_of_length_eq_zero hl.symm)
    show medianSorted (isort ((rows.filter fun x => x.snd = c).map Prod.fst)) =
      quantileSorted (isort ((rows.filter fun x => x.snd = c).map Prod.fst))
        (1 / 2)
    exact (quantile_half_eq_median _ hsne).symm
